import Mathlib

/-!
Verification development for the POMtools pyRevit extension.

The definitions below are a shallow embedding of the Python sources under
`pyRevitExtensions/Extension.extension/POMtools.tab/`:
  * the filename sanitizer used by the IFC and JSON exporters,
  * the line-oriented IFC record extractor (`read_ifc_file`,
    `extract_elements_from_ifc` of `JSON Export.panel/IFCExportViews.pushbutton`),
  * the layered IFC export-option resolver (`apply_ifc_config_to_options`
    and the option-building prefix of `export_view_to_ifc` of
    `Export IFC.panel/Revit to IFC.pushbutton`),
  * the transactional per-view export step and the per-document loop,
  * the batch runner (`open_and_process_revit_files`, `process_document`
    of `IFC Export.panel/Revit batch to IFC.pushbutton`).

Python strings are modelled as `List Char` (sequences of Unicode code
points); external collaborators (Revit documents, transactions, the IFC
exporter, the UI) are modelled at their interface boundary as explicit
behaviour parameters.
-/

/-! ## Python string primitives -/

/-- Python strings are sequences of Unicode code points. -/
abbrev PyStr := List Char

/-- Bool test for a closed interval of naturals. -/
def inRange (lo hi n : Nat) : Bool := decide (lo ≤ n) && decide (n ≤ hi)

/-- Python `str.isspace` for a single character: the Unicode whitespace
table (`\t \n \v \f \r`, the separators U+001C–U+001F, space, U+0085,
U+00A0, U+1680, U+2000–U+200A, U+2028, U+2029, U+202F, U+205F, U+3000). -/
def pyIsSpace (c : Char) : Bool :=
  let n := c.toNat
  inRange 9 13 n || inRange 28 31 n || n == 32 || n == 133 || n == 160 ||
  n == 0x1680 || inRange 0x2000 0x200A n || n == 0x2028 || n == 0x2029 ||
  n == 0x202F || n == 0x205F || n == 0x3000

/-- Python `str.isalnum` for a single character.  Exact for code points
below U+0100: ASCII digits and letters, plus the Latin-1 Supplement
alphanumerics (ª ² ³ µ ¹ º ¼ ½ ¾ and the letters À–ÿ, which exclude the
multiplication sign U+00D7 and the division sign U+00F7).  Python's table
continues beyond Latin-1; no input in this development evaluates the
classification at a code point ≥ U+0100, and every theorem that depends
on the exact class either restricts to ASCII or is evaluated at Latin-1
code points. -/
def pyIsAlnum (c : Char) : Bool :=
  let n := c.toNat
  inRange 48 57 n || inRange 65 90 n || inRange 97 122 n ||
  n == 170 || n == 178 || n == 179 || n == 181 || n == 185 || n == 186 ||
  n == 188 || n == 189 || n == 190 ||
  (inRange 192 255 n && !(n == 215) && !(n == 247))

/-- Python `s.rstrip()`: drop trailing whitespace. -/
def rstripWs (s : PyStr) : PyStr := (s.reverse.dropWhile pyIsSpace).reverse

/-- Python `s.strip()`: drop leading and trailing whitespace. -/
def stripWs (s : PyStr) : PyStr := rstripWs (s.dropWhile pyIsSpace)

/-- Python `s.strip('#')`: drop leading and trailing `#` characters. -/
def stripHash (s : PyStr) : PyStr :=
  ((s.dropWhile (· == '#')).reverse.dropWhile (· == '#')).reverse

/-- Python `s.split(sep)` for a one-character separator: the list of
(possibly empty) segments between occurrences of `sep`. -/
def splitOnChar (sep : Char) : PyStr → List PyStr
  | [] => [[]]
  | c :: rest =>
    if c == sep then [] :: splitOnChar sep rest
    else
      match splitOnChar sep rest with
      | [] => [[c]]
      | p :: ps => (c :: p) :: ps

/-- Bool test that `pat` is an initial segment of `s`. -/
def isPrefixOfChars : PyStr → PyStr → Bool
  | [], _ => true
  | _ :: _, [] => false
  | a :: as, b :: bs => a == b && isPrefixOfChars as bs

/-- Python `pat in s`: substring containment. -/
def containsSub (pat : PyStr) : PyStr → Bool
  | [] => isPrefixOfChars pat []
  | s@(_ :: rest) => isPrefixOfChars pat s || containsSub pat rest

/-! ## FilenameSanitizer

Source (`Export IFC.panel/Revit to IFC.pushbutton/script.py`, line 158,
identical at `Export JSON.panel/ExportViews.pushbutton/script.py` line 149):

  safe_viewname = "".join([c for c in view.Name
                           if c.isalnum() or c in (' ','-','_')]).rstrip()

and line 166: `safe_filename = prefix + safe_viewname`. -/

/-- The character filter of the sanitizer: `c.isalnum() or c in (' ','-','_')`
(code points 32, 45, 95). -/
def keepChar (c : Char) : Bool :=
  pyIsAlnum c || c.toNat == 32 || c.toNat == 45 || c.toNat == 95

/-- The sanitized view name: keep filtered characters, then `rstrip()`. -/
def safe_viewname (name : PyStr) : PyStr := rstripWs (name.filter keepChar)

/-- The sanitized file name: the version prefix prepended verbatim. -/
def safe_filename (pfx : PyStr) (name : PyStr) : PyStr := pfx ++ safe_viewname name

/-- Modelled from the spec: the character class `[A-Za-z0-9 _-]` that the
specification says the sanitizer keeps (A–Z is 65–90, a–z is 97–122,
0–9 is 48–57, then space 32, underscore 95, hyphen 45). -/
def spec_ascii_keep (c : Char) : Bool :=
  let n := c.toNat
  inRange 65 90 n || inRange 97 122 n || inRange 48 57 n ||
  n == 32 || n == 95 || n == 45

/-- Modelled from the spec: sanitization as the spec words it — keep only
`[A-Za-z0-9 _-]`, then trim trailing whitespace. -/
def spec_ascii_sanitize (name : PyStr) : PyStr := rstripWs (name.filter spec_ascii_keep)

/-! ## RecordExtractor

Source: `JSON Export.panel/IFCExportViews.pushbutton/script.py`,
`read_ifc_file` (lines 17–72) and `extract_elements_from_ifc`
(lines 74–87).  The per-line scrape is

    line_num += 1
    if '=IFC' in decoded_line and decoded_line.startswith('#'):
        parts = decoded_line.split('=')
        entity_id = parts[0].strip('#').strip()
        entity_type = parts[1].split('(')[0].strip()
        element_info = {"id": ..., "type": ..., "line": line_num,
                        "raw_data": decoded_line.strip()}
        element_types[entity_type] += 1
        elements_by_type[entity_type].append(element_info)

with a bare `except: continue` that only fires when one of these
operations raises (modelled by the unreachable fallback of the `match`
on the split, mirroring the `IndexError` path). -/

/-- One extracted record: the keys of the Python dict `element_info`
(`"type"` is rendered as `entityType`). -/
structure IfcRecord where
  id : PyStr
  entityType : PyStr
  line : Nat
  raw_data : PyStr
deriving DecidableEq, Repr

/-- Generic lookup in an association list (Python dict read `d[k]` /
`k in d`), first binding wins. -/
def lookupA {κ α : Type} [DecidableEq κ] (k : κ) : List (κ × α) → Option α
  | [] => none
  | (k', v) :: rest => if k' = k then some v else lookupA k rest

/-- Python dict assignment `d[k] = v`: replace the binding in place, or
append a new one. -/
def setA {κ α : Type} [DecidableEq κ] (k : κ) (v : α) : List (κ × α) → List (κ × α)
  | [] => [(k, v)]
  | (k', v') :: rest => if k' = k then (k, v) :: rest else (k', v') :: setA k v rest

/-- `element_types[entity_type] += 1` on a `defaultdict(int)`. -/
def bumpCount (k : PyStr) : List (PyStr × Nat) → List (PyStr × Nat)
  | [] => [(k, 1)]
  | (k', n) :: rest => if k' = k then (k', n + 1) :: rest else (k', n) :: bumpCount k rest

/-- `elements_by_type[entity_type].append(r)` on a `defaultdict(list)`. -/
def appendBucket (k : PyStr) (r : IfcRecord) :
    List (PyStr × List IfcRecord) → List (PyStr × List IfcRecord)
  | [] => [(k, [r])]
  | (k', rs) :: rest =>
    if k' = k then (k', rs ++ [r]) :: rest else (k', rs) :: appendBucket k r rest

/-- The result of `read_ifc_file` (the `file_info` entry is external
file-system metadata and is not modelled). -/
structure IfcData where
  element_types : List (PyStr × Nat)
  elements_by_type : List (PyStr × List IfcRecord)
deriving DecidableEq, Repr

/-- The qualifying test: `'=IFC' in decoded_line and decoded_line.startswith('#')`. -/
def ifcLineQualifies (l : PyStr) : Bool :=
  containsSub ("=IFC".data) l && isPrefixOfChars ("#".data) l

/-- The record scraped from one line (`line_num` is already 1-based).
`parts[1].split('(')[0]` never raises: `split` always returns at least
one segment; the `none` fallback mirrors the `IndexError` branch of the
bare `except`, which is unreachable because a qualifying line contains
`=`. -/
def read_ifc_line (line_num : Nat) (l : PyStr) : Option IfcRecord :=
  if ifcLineQualifies l then
    match splitOnChar '=' l with
    | p0 :: p1 :: _ =>
      some { id := stripWs (stripHash p0),
             entityType := stripWs ((splitOnChar '(' p1).headD p1),
             line := line_num,
             raw_data := stripWs l }
    | _ => none
  else none

/-- Insert one scraped record into both accumulators. -/
def addRecord (d : IfcData) (r : IfcRecord) : IfcData :=
  { element_types := bumpCount r.entityType d.element_types,
    elements_by_type := appendBucket r.entityType r d.elements_by_type }

/-- The scan loop of `read_ifc_file`: `n` is the number of lines already
consumed (`line_num` before the increment). -/
def read_ifc_lines : Nat → List PyStr → IfcData → IfcData
  | _, [], d => d
  | n, l :: rest, d =>
    match read_ifc_line (n + 1) l with
    | some r => read_ifc_lines (n + 1) rest (addRecord d r)
    | none => read_ifc_lines (n + 1) rest d

/-- `read_ifc_file`, on the decoded lines of the input stream. -/
def read_ifc_file (lines : List PyStr) : IfcData :=
  read_ifc_lines 0 lines ⟨[], []⟩

/-- The result of `extract_elements_from_ifc` (the copied `file_info`
entry is again not modelled). -/
structure ExtractedData where
  selected_types : List PyStr
  elements : List (PyStr × List IfcRecord)
deriving DecidableEq, Repr

/-- `extract_elements_from_ifc`: project the full extraction down to the
caller-selected types, copying each present bucket verbatim. -/
def extract_elements_from_ifc (ifc_data : IfcData) (selected_types : List PyStr) :
    ExtractedData :=
  { selected_types := selected_types,
    elements := selected_types.foldl
      (fun acc t =>
        match lookupA t ifc_data.elements_by_type with
        | some rs => setA t rs acc
        | none => acc) [] }

/-! ## ConfigResolver

Source: `Export IFC.panel/Revit to IFC.pushbutton/script.py`,
`apply_ifc_config_to_options` (lines 32–109) and the option-building
prefix of `export_view_to_ifc` (lines 111–152).  `DB.IFCExportOptions`
carries four typed properties plus an open string-to-string option map
whose `AddOption` updates in place (last write wins). -/

/-- The two `DB.IFCVersion` values this code assigns. -/
inductive IFCVersion where
  | IFC2x3CV2
  | IFC4
deriving DecidableEq, Repr

/-- A JSON primitive as loaded from an override file (the override files
this code authors and consumes hold booleans, integers and strings). -/
inductive PyValue where
  | bool (b : Bool)
  | int (n : Int)
  | str (s : String)
deriving DecidableEq, Repr

/-- Python `==` against an integer literal: Python booleans are integers
(`True == 1`), strings never equal integers. -/
def pyEqInt (v : PyValue) (n : Int) : Bool :=
  match v with
  | .bool b => (if b then (1 : Int) else 0) == n
  | .int m => m == n
  | .str _ => false

/-- Python `str(x).lower()` for the values a JSON override can hold. -/
def pyStrLower (v : PyValue) : String :=
  match v with
  | .bool b => if b then "true" else "false"
  | .int n => toString n
  | .str s => s.toLower

/-- An override mapping (`config_data`), the loaded JSON object. -/
abbrev ConfigMap := List (String × PyValue)

/-- The mutable `DB.IFCExportOptions` bag: the four typed properties the
code assigns plus the `AddOption` map. -/
structure IFCExportOptions where
  FileVersion : IFCVersion
  SpaceBoundaryLevel : Int
  ExportBaseQuantities : Bool
  WallAndColumnSplitting : Bool
  options : List (String × String)
deriving DecidableEq, Repr

/-- `ifc_options.AddOption(name, value)`: set or overwrite one named
string option. -/
def AddOption (name value : String) (o : IFCExportOptions) : IFCExportOptions :=
  { o with options := setA name value o.options }

/-- Read back one named option of the effective bag. -/
def getOption (name : String) (o : IFCExportOptions) : Option String :=
  lookupA name o.options

/-- Lines 35–42: `IFCVersion` 21 selects IFC2x3CV2, 23 or 25 select IFC4,
any other value falls through leaving `FileVersion` untouched. -/
def applyIFCVersion (config : ConfigMap) (o : IFCExportOptions) : IFCExportOptions :=
  match lookupA "IFCVersion" config with
  | none => o
  | some v =>
    if pyEqInt v 21 then { o with FileVersion := .IFC2x3CV2 }
    else if pyEqInt v 23 || pyEqInt v 25 then { o with FileVersion := .IFC4 }
    else o

/-- Lines 45–49: `SpaceBoundaries` assigned to the integer property
`SpaceBoundaryLevel`; a value the property rejects is logged as a warning
and skipped (a Python boolean is an integer). -/
def applySpaceBoundaries (config : ConfigMap) (o : IFCExportOptions) : IFCExportOptions :=
  match lookupA "SpaceBoundaries" config with
  | some (.int n) => { o with SpaceBoundaryLevel := n }
  | some (.bool b) => { o with SpaceBoundaryLevel := if b then 1 else 0 }
  | _ => o

/-- Lines 52–56: `SplitWallsAndColumns` assigned to the boolean property
`WallAndColumnSplitting`; a non-boolean is logged and skipped. -/
def applySplitWalls (config : ConfigMap) (o : IFCExportOptions) : IFCExportOptions :=
  match lookupA "SplitWallsAndColumns" config with
  | some (.bool b) => { o with WallAndColumnSplitting := b }
  | _ => o

/-- Lines 59–63: `ExportBaseQuantities` assigned to the boolean property;
a non-boolean is logged and skipped. -/
def applyBaseQuantities (config : ConfigMap) (o : IFCExportOptions) : IFCExportOptions :=
  match lookupA "ExportBaseQuantities" config with
  | some (.bool b) => { o with ExportBaseQuantities := b }
  | _ => o

/-- Lines 66–77 and the `simple_options` loop body (lines 98–104): when
`key` is present, `AddOption(key, str(value).lower())`. -/
def applyAddOptionStr (key : String) (config : ConfigMap) (o : IFCExportOptions) :
    IFCExportOptions :=
  match lookupA key config with
  | some v => AddOption key (pyStrLower v) o
  | none => o

/-- Lines 80–84: `ExcludeFilter` forwarded verbatim; `AddOption` only
accepts a string value, anything else raises, is logged and skipped. -/
def applyExcludeFilter (config : ConfigMap) (o : IFCExportOptions) : IFCExportOptions :=
  match lookupA "ExcludeFilter" config with
  | some (.str s) => AddOption "ExcludeFilter" s o
  | _ => o

/-- The `simple_options` key set (lines 86–95), in source order. -/
def simple_options : List String :=
  ["VisibleElementsOfCurrentView", "Export2DElements", "ExportLinkedFiles",
   "UseActiveViewGeometry", "ExportIFCCommonPropertySets",
   "Use2DRoomBoundaryForVolume", "UseOnlyTriangulation",
   "UseTypeNameOnlyForIfcType"]

/-- The `simple_options` loop: each present key is added with its
lowercased string rendering. -/
def applySimpleOptions (config : ConfigMap) (o : IFCExportOptions) : IFCExportOptions :=
  simple_options.foldl (fun o k => applyAddOptionStr k config o) o

/-- `apply_ifc_config_to_options(config_data, ifc_options)`: the steps of
lines 35–104 in source order. -/
def apply_ifc_config_to_options (config : ConfigMap) (o : IFCExportOptions) :
    IFCExportOptions :=
  applySimpleOptions config
    (applyExcludeFilter config
      (applyAddOptionStr "ExportSolidModelRep" config
        (applyAddOptionStr "ExportRoomsInView" config
          (applyBaseQuantities config
            (applySplitWalls config
              (applySpaceBoundaries config
                (applyIFCVersion config o)))))))

/-- Lines 115–135: the built-in preset selected by `ifc_version`
(`'ifc4'` picks the IFC4 reference-view preset with its five extra
options; anything else picks the IFC 2x3 coordination-view preset). -/
def default_ifc_options (ifc_version : String) : IFCExportOptions :=
  if ifc_version = "ifc4" then
    AddOption "UseOnlyTriangulation" "true"
      (AddOption "UseTypeNameOnlyForIfcType" "true"
        (AddOption "ExportBoundingBox" "false"
          (AddOption "IFCVersion" "IFC4"
            (AddOption "ExchangeRequirement" "ReferenceView"
              { FileVersion := .IFC4, SpaceBoundaryLevel := 0,
                ExportBaseQuantities := false, WallAndColumnSplitting := false,
                options := [] }))))
  else
    { FileVersion := .IFC2x3CV2, SpaceBoundaryLevel := 0,
      ExportBaseQuantities := false, WallAndColumnSplitting := false,
      options := [] }

/-- Lines 114–152 of `export_view_to_ifc`: the full option-building
pipeline.  `config = some cfg` models a config file that exists and
loads successfully; after the override layer only
`VisibleElementsOfCurrentView` is re-added (line 151–152). -/
def export_view_to_ifc_options (config : Option ConfigMap)
    (use_active_view_only : Bool) (ifc_version : String) : IFCExportOptions :=
  let o := default_ifc_options ifc_version
  let o := AddOption "VisibleElementsOfCurrentView" "true" o
  let o :=
    if use_active_view_only then
      AddOption "Export2DElements" "false"
        (AddOption "ExportLinkedFiles" "false"
          (AddOption "VisibleElementsOfCurrentView" "true" o))
    else o
  match config with
  | none => o
  | some cfg =>
    let o := apply_ifc_config_to_options cfg o
    if use_active_view_only then AddOption "VisibleElementsOfCurrentView" "true" o
    else o

/-! ## ExportOrchestrator: the transactional per-view step

Source: `IFC Export.panel/Revit to IFC.pushbutton/script.py`,
`export_view_to_ifc` lines 157–181 (the transaction block) inside the
function-wide handler of lines 122/179–181, and the per-view loop of
`process_document` lines 219–235.  The external exporter either returns
a boolean or raises; this is the unit's behaviour parameter. -/

/-- The behaviour of one `doc.Export(...)` call. -/
inductive ExportCall where
  | ok (result : Bool)
  | raises (msg : String)
deriving DecidableEq, Repr

/-- The final state of the scoped transaction around one export. -/
inductive TxnOutcome where
  | committed
  | rolledBack
deriving DecidableEq, Repr

/-- Lines 158–177: start the transaction, invoke the exporter, commit
when the call returns (a truthy result yields the file path, a falsy one
yields no path), roll back and re-raise when the call raises. -/
def export_transaction (call : ExportCall) (filepath : String) :
    TxnOutcome × Except String (Option String) :=
  match call with
  | .ok r => (.committed, .ok (if r then some filepath else none))
  | .raises m => (.rolledBack, .error m)

/-- `export_view_to_ifc` as observed by its caller: the function-wide
`except` (lines 179–181) catches the re-raised error and returns `None`. -/
def export_view_to_ifc_result (call : ExportCall) (filepath : String) :
    TxnOutcome × Option String :=
  match export_transaction call filepath with
  | (t, .ok v) => (t, v)
  | (t, .error _) => (t, none)

/-- The per-view loop of `process_document` (lines 219–235): append the
file path of every successful export, continue past failures (each view
is given here as its destination file path paired with its exporter
behaviour). -/
def process_document_exports : List (String × ExportCall) → List String
  | [] => []
  | j :: rest =>
    match export_view_to_ifc_result j.2 j.1 with
    | (_, some fp) => fp :: process_document_exports rest
    | (_, none) => process_document_exports rest

/-! ## BatchRunner

Source: `IFC Export.panel/Revit batch to IFC.pushbutton/script.py`,
`process_document` (lines 219–367) and `open_and_process_revit_files`
(lines 122–217).  The transaction probe (lines 255–263: start a no-op
transaction and immediately roll it back) either succeeds or raises;
its behaviour is the `probeFails` parameter of the unit. -/

/-- The per-view body of the batch `process_document` (lines 282–365):
the same transaction pattern as `export_transaction`, with the per-view
`except ... continue`.  Returns the appended file path, if any. -/
def batch_export_view (j : String × ExportCall) : Option String :=
  (export_view_to_ifc_result j.2 j.1).2

/-- The batch per-view loop, also recording which destination paths were
actually handed to `doc.Export` (the invocation trace). -/
def batch_views_loop : List (String × ExportCall) → List String × List String
  | [] => ([], [])
  | j :: rest =>
    let (exps, calls) := batch_views_loop rest
    match batch_export_view j with
    | some fp => (fp :: exps, j.1 :: calls)
    | none => (exps, j.1 :: calls)

/-- The batch `process_document` (lines 219–367), after view selection:
no selected views returns early (line 248–249); a failing transaction
probe alerts the user and returns an empty result (lines 254–273) before
any view reaches the export loop; otherwise every selected view is
processed in order.  Returns (exported file paths, exporter invocations). -/
def batch_process_document (probeFails : Bool) (jobs : List (String × ExportCall)) :
    List String × List String :=
  if jobs.isEmpty then ([], [])
  else if probeFails then ([], [])
  else batch_views_loop jobs

/-- The behaviour of one work unit (one `.rvt` file) as the batch loop
observes it: opening the document raises, processing it raises midway,
or it opens and its probe/selected views behave as given. -/
inductive UnitBehavior where
  | openFails (msg : String)
  | processRaises (msg : String)
  | opened (probeFails : Bool) (jobs : List (String × ExportCall))
deriving DecidableEq, Repr

/-- The summary dict returned by `open_and_process_revit_files`
(lines 211–217); the `ifc_version` label is a constant of the run and
not modelled. -/
structure BatchReport where
  exported_files : List String
  successful_files : Nat
  failed_files : List String
  total_files : Nat
deriving DecidableEq, Repr

/-- One iteration of the batch loop (lines 151–208): an open failure or
a processing failure appends `name (error)` to `failed_files` and
continues; an opened unit with a non-empty export list extends
`exported_files` and bumps `successful_files`, an opened unit with no
exports appends the `aucune vue exportée` failure entry. -/
def open_and_process_step (acc : BatchReport) (u : String × UnitBehavior) :
    BatchReport :=
  match u.2 with
  | .openFails m =>
    { acc with failed_files := acc.failed_files ++ [u.1 ++ " (" ++ m ++ ")"] }
  | .processRaises m =>
    { acc with failed_files := acc.failed_files ++ [u.1 ++ " (" ++ m ++ ")"] }
  | .opened pf jobs =>
    let exps := (batch_process_document pf jobs).1
    if exps.isEmpty then
      { acc with failed_files := acc.failed_files ++ [u.1 ++ " (aucune vue exportée)"] }
    else
      { acc with exported_files := acc.exported_files ++ exps,
                 successful_files := acc.successful_files + 1 }

/-- `open_and_process_revit_files`: fold the batch loop over the units in
input order; `total_files = len(file_paths)` is fixed up front. -/
def open_and_process_revit_files (units : List (String × UnitBehavior)) : BatchReport :=
  units.foldl open_and_process_step
    { exported_files := [], successful_files := 0, failed_files := [],
      total_files := units.length }

/-- The failure entry a unit contributes to `failed_files`, if any. -/
def unit_failure_entry (u : String × UnitBehavior) : Option String :=
  match u.2 with
  | .openFails m => some (u.1 ++ " (" ++ m ++ ")")
  | .processRaises m => some (u.1 ++ " (" ++ m ++ ")")
  | .opened pf jobs =>
    if (batch_process_document pf jobs).1.isEmpty then
      some (u.1 ++ " (aucune vue exportée)")
    else none

/-- The exported file paths a unit contributes. -/
def unit_exports (u : String × UnitBehavior) : List String :=
  match u.2 with
  | .opened pf jobs => (batch_process_document pf jobs).1
  | _ => []

/-- Whether a unit counts towards `successful_files`. -/
def unit_success (u : String × UnitBehavior) : Bool :=
  match u.2 with
  | .opened pf jobs => !(batch_process_document pf jobs).1.isEmpty
  | _ => false

/-! ## Spec-side companion definitions

Used to state the extraction claims independently of the scan loop: the
per-line field rules written out over "first occurrence" splits, and the
characterizations the claims assert. -/

/-- The text before the first occurrence of `sep` (all of `s` when `sep`
does not occur). -/
def takeUntilChar (sep : Char) (s : PyStr) : PyStr :=
  s.takeWhile (fun c => !(c == sep))

/-- The text after the first occurrence of `sep` (empty when `sep` does
not occur). -/
def tailAfterFirst (sep : Char) (s : PyStr) : PyStr :=
  (s.dropWhile (fun c => !(c == sep))).tail

/-- The entity id the scan computes, phrased positionally: the text left
of the first `=`, with all leading and trailing `#` stripped, then
whitespace-stripped. -/
def spec_entity_id (l : PyStr) : PyStr := stripWs (stripHash (takeUntilChar '=' l))

/-- The entity type the scan computes, phrased positionally: the text
between the first and second `=` (to end of line when there is no second
`=`), truncated before its first `(`, then whitespace-stripped. -/
def spec_entity_type (l : PyStr) : PyStr :=
  stripWs (takeUntilChar '(' (takeUntilChar '=' (tailAfterFirst '=' l)))

/-- The record a qualifying line at 1-based position `i` contributes. -/
def spec_record (i : Nat) (l : PyStr) : IfcRecord :=
  { id := spec_entity_id l, entityType := spec_entity_type l, line := i,
    raw_data := stripWs l }

/-- The flat record list of a stream, in file order, starting after `n`
already-consumed lines. -/
def spec_records : Nat → List PyStr → List IfcRecord
  | _, [] => []
  | n, l :: rest =>
    if ifcLineQualifies l then spec_record (n + 1) l :: spec_records (n + 1) rest
    else spec_records (n + 1) rest

/-- The flat record list as the scan itself computes it. -/
def code_records : Nat → List PyStr → List IfcRecord
  | _, [] => []
  | n, l :: rest =>
    match read_ifc_line (n + 1) l with
    | some r => r :: code_records (n + 1) rest
    | none => code_records (n + 1) rest

/-- Drop a single leading `#`, if present. -/
def dropOneLeadingHash : PyStr → PyStr
  | '#' :: t => t
  | t => t

/-- Modelled from the claim's words: the entity id as "the text left of
the first `=` with the leading `#` stripped". -/
def claim_entity_id (l : PyStr) : PyStr := dropOneLeadingHash (takeUntilChar '=' l)

/-- Modelled from the claim's words: the entity type as "the token before
the first `(` on the right side" of the first `=`. -/
def claim_entity_type (l : PyStr) : PyStr := takeUntilChar '(' (tailAfterFirst '=' l)

/-- Extend an optional bucket by a batch of records arriving in order. -/
def optExtend (o : Option (List IfcRecord)) (fs : List IfcRecord) :
    Option (List IfcRecord) :=
  match o with
  | some b => some (b ++ fs)
  | none => if fs.isEmpty then none else some fs

/-- Raise an optional counter by a batch size. -/
def optBump (o : Option Nat) (m : Nat) : Option Nat :=
  match o with
  | some n => some (n + m)
  | none => if m = 0 then none else some m

/-! ## Association-list lemmas -/

theorem lookupA_setA_same {κ α : Type} [DecidableEq κ] (k : κ) (v : α)
    (l : List (κ × α)) : lookupA k (setA k v l) = some v := by
  induction l with
  | nil => simp [setA, lookupA]
  | cons hd tl ih =>
    obtain ⟨k', v'⟩ := hd
    by_cases h : k' = k <;> simp [setA, lookupA, h, ih]

theorem lookupA_setA_ne {κ α : Type} [DecidableEq κ] {k k' : κ} (v : α)
    (l : List (κ × α)) (h : k' ≠ k) : lookupA k (setA k' v l) = lookupA k l := by
  induction l with
  | nil => simp [setA, lookupA, h]
  | cons hd tl ih =>
    obtain ⟨k'', v''⟩ := hd
    by_cases h2 : k'' = k'
    · simp [setA, lookupA, h2, h, h.symm, ih]
    · by_cases h3 : k'' = k <;> simp [setA, lookupA, h2, h3, h.symm, ih]

theorem lookupA_bumpCount_same (k : PyStr) (l : List (PyStr × Nat)) :
    lookupA k (bumpCount k l) = some ((lookupA k l).getD 0 + 1) := by
  induction l with
  | nil => simp [bumpCount, lookupA]
  | cons hd tl ih =>
    obtain ⟨k', n⟩ := hd
    by_cases h : k' = k <;> simp [bumpCount, lookupA, h, ih]

theorem lookupA_bumpCount_ne {k k' : PyStr} (l : List (PyStr × Nat)) (h : k' ≠ k) :
    lookupA k (bumpCount k' l) = lookupA k l := by
  induction l with
  | nil => simp [bumpCount, lookupA, h]
  | cons hd tl ih =>
    obtain ⟨k'', n⟩ := hd
    by_cases h2 : k'' = k'
    · subst h2; simp [bumpCount, lookupA, h, ih]
    · by_cases h3 : k'' = k <;> simp [bumpCount, lookupA, h2, h3, h.symm, ih]

theorem lookupA_appendBucket_same (k : PyStr) (r : IfcRecord)
    (l : List (PyStr × List IfcRecord)) :
    lookupA k (appendBucket k r l) = some ((lookupA k l).getD [] ++ [r]) := by
  induction l with
  | nil => simp [appendBucket, lookupA]
  | cons hd tl ih =>
    obtain ⟨k', rs⟩ := hd
    by_cases h : k' = k <;> simp [appendBucket, lookupA, h, ih]

theorem lookupA_appendBucket_ne {k k' : PyStr} (r : IfcRecord)
    (l : List (PyStr × List IfcRecord)) (h : k' ≠ k) :
    lookupA k (appendBucket k' r l) = lookupA k l := by
  induction l with
  | nil => simp [appendBucket, lookupA, h]
  | cons hd tl ih =>
    obtain ⟨k'', rs⟩ := hd
    by_cases h2 : k'' = k'
    · subst h2; simp [appendBucket, lookupA, h, ih]
    · by_cases h3 : k'' = k <;> simp [appendBucket, lookupA, h2, h3, h.symm, ih]

/-! ## Extractor scan-loop characterization -/

theorem read_ifc_lines_eq_fold (ls : List PyStr) : ∀ (n : Nat) (d : IfcData),
    read_ifc_lines n ls d = (code_records n ls).foldl addRecord d := by
  induction ls with
  | nil => intro n d; rfl
  | cons l rest ih =>
    intro n d
    unfold read_ifc_lines code_records
    cases read_ifc_line (n + 1) l <;> simp [ih]

theorem foldl_addRecord_buckets (rs : List IfcRecord) : ∀ (d : IfcData) (t : PyStr),
    lookupA t (rs.foldl addRecord d).elements_by_type =
      optExtend (lookupA t d.elements_by_type)
        (rs.filter (fun r => r.entityType = t)) := by
  induction rs with
  | nil =>
    intro d t
    cases h : lookupA t d.elements_by_type <;> simp [optExtend, h]
  | cons r rs ih =>
    intro d t
    by_cases ht : r.entityType = t
    · subst ht
      simp only [List.foldl_cons, ih, addRecord, List.filter_cons]
      simp [lookupA_appendBucket_same, optExtend]
      cases h : lookupA r.entityType d.elements_by_type <;> simp [h, optExtend]
    · simp only [List.foldl_cons, ih, addRecord, List.filter_cons]
      simp [lookupA_appendBucket_ne _ _ ht, ht]

theorem foldl_addRecord_counts (rs : List IfcRecord) : ∀ (d : IfcData) (t : PyStr),
    lookupA t (rs.foldl addRecord d).element_types =
      optBump (lookupA t d.element_types)
        (rs.filter (fun r => r.entityType = t)).length := by
  induction rs with
  | nil =>
    intro d t
    cases h : lookupA t d.element_types <;> simp [optBump, h]
  | cons r rs ih =>
    intro d t
    by_cases ht : r.entityType = t
    · subst ht
      simp only [List.foldl_cons, ih, addRecord, List.filter_cons]
      simp [lookupA_bumpCount_same, optBump]
      cases h : lookupA r.entityType d.element_types <;>
        simp [h, optBump, Nat.add_comm, Nat.add_assoc, Nat.add_left_comm]
    · simp only [List.foldl_cons, ih, addRecord, List.filter_cons]
      simp [lookupA_bumpCount_ne _ ht, ht]

theorem keys_bumpCount_appendBucket (k : PyStr) (r : IfcRecord) :
    ∀ (cs : List (PyStr × Nat)) (bs : List (PyStr × List IfcRecord)),
    cs.map Prod.fst = bs.map Prod.fst →
    (bumpCount k cs).map Prod.fst = (appendBucket k r bs).map Prod.fst := by
  intro cs
  induction cs with
  | nil =>
    intro bs h
    cases bs with
    | nil => simp [bumpCount, appendBucket]
    | cons b bt => simp at h
  | cons c ct ih =>
    intro bs h
    cases bs with
    | nil => simp at h
    | cons b bt =>
      obtain ⟨ck, cn⟩ := c
      obtain ⟨bk, brs⟩ := b
      simp at h
      obtain ⟨hk, ht⟩ := h
      subst hk
      by_cases hck : ck = k <;> simp [bumpCount, appendBucket, hck, ht, ih bt ht]

theorem keys_addRecord (d : IfcData) (r : IfcRecord)
    (h : d.element_types.map Prod.fst = d.elements_by_type.map Prod.fst) :
    (addRecord d r).element_types.map Prod.fst =
      (addRecord d r).elements_by_type.map Prod.fst := by
  exact keys_bumpCount_appendBucket r.entityType r _ _ h

theorem keys_foldl_addRecord (rs : List IfcRecord) : ∀ (d : IfcData),
    d.element_types.map Prod.fst = d.elements_by_type.map Prod.fst →
    (rs.foldl addRecord d).element_types.map Prod.fst =
      (rs.foldl addRecord d).elements_by_type.map Prod.fst := by
  induction rs with
  | nil => intro d h; exact h
  | cons r rs ih =>
    intro d h
    simpa using ih (addRecord d r) (keys_addRecord d r h)

/-- C10: for every input text stream, the per-type count mapping and the
per-type record-list mapping of the extraction result are consistent:
they have exactly the same type keys (in the same first-seen order), and
for every type key the stored count equals the length of that type's
record list. -/
theorem C10_counts_match_buckets (lines : List PyStr) :
    (read_ifc_file lines).element_types.map Prod.fst =
      (read_ifc_file lines).elements_by_type.map Prod.fst
    ∧ ∀ t : PyStr,
        lookupA t (read_ifc_file lines).element_types =
          (lookupA t (read_ifc_file lines).elements_by_type).map List.length := by
  unfold read_ifc_file
  rw [read_ifc_lines_eq_fold]
  constructor
  · exact keys_foldl_addRecord _ ⟨[], []⟩ rfl
  · intro t
    rw [foldl_addRecord_buckets, foldl_addRecord_counts]
    simp only [lookupA, optExtend, optBump]
    cases h : (code_records 0 lines).filter (fun r => r.entityType = t) <;> simp [h]

/-- C9: projecting a full extraction down to selected types copies each
selected, present bucket verbatim (same records, same order), and a
selected type absent from the extraction contributes no entry at all. -/
theorem C9_projection (ifc_data : IfcData) (selected_types : List PyStr) (t : PyStr) :
    lookupA t (extract_elements_from_ifc ifc_data selected_types).elements =
      if t ∈ selected_types ∧ (lookupA t ifc_data.elements_by_type).isSome then
        lookupA t ifc_data.elements_by_type
      else none := by
  unfold extract_elements_from_ifc
  simp only
  have main : ∀ (sel : List PyStr) (acc : List (PyStr × List IfcRecord)),
      lookupA t (sel.foldl
        (fun acc u =>
          match lookupA u ifc_data.elements_by_type with
          | some rs => setA u rs acc
          | none => acc) acc) =
      if t ∈ sel ∧ (lookupA t ifc_data.elements_by_type).isSome then
        lookupA t ifc_data.elements_by_type
      else lookupA t acc := by
    intro sel
    induction sel with
    | nil => intro acc; simp
    | cons s rest ih =>
      intro acc
      simp only [List.foldl_cons, ih]
      by_cases hmem : t ∈ rest
      · by_cases hsome : (lookupA t ifc_data.elements_by_type).isSome
        · simp [hmem, hsome]
        · simp [hmem, hsome]
          by_cases hst : s = t
          · subst hst
            cases h : lookupA s ifc_data.elements_by_type with
            | none => rfl
            | some rs => simp [h] at hsome
          · cases h : lookupA s ifc_data.elements_by_type with
            | none => rfl
            | some rs => simp [lookupA_setA_ne _ _ hst]
      · by_cases hst : s = t
        · subst hst
          cases h : lookupA s ifc_data.elements_by_type with
          | none => simp [hmem, h]
          | some rs => simp [hmem, h, lookupA_setA_same]
        · have : ¬ t ∈ s :: rest := by
            intro hc
            rcases List.mem_cons.mp hc with h1 | h1
            · exact hst h1.symm
            · exact hmem h1
          cases h : lookupA s ifc_data.elements_by_type with
          | none => simp [hmem, this]
          | some rs => simp [hmem, this, lookupA_setA_ne _ _ hst]
  rw [main]
  simp [lookupA]

/-! ## ConfigResolver lemmas -/

theorem FileVersion_applySpaceBoundaries (c : ConfigMap) (o : IFCExportOptions) :
    (applySpaceBoundaries c o).FileVersion = o.FileVersion := by
  unfold applySpaceBoundaries
  cases h : lookupA "SpaceBoundaries" c with
  | none => rfl
  | some v => cases v <;> rfl

theorem FileVersion_applySplitWalls (c : ConfigMap) (o : IFCExportOptions) :
    (applySplitWalls c o).FileVersion = o.FileVersion := by
  unfold applySplitWalls
  cases h : lookupA "SplitWallsAndColumns" c with
  | none => rfl
  | some v => cases v <;> rfl

theorem FileVersion_applyBaseQuantities (c : ConfigMap) (o : IFCExportOptions) :
    (applyBaseQuantities c o).FileVersion = o.FileVersion := by
  unfold applyBaseQuantities
  cases h : lookupA "ExportBaseQuantities" c with
  | none => rfl
  | some v => cases v <;> rfl

theorem FileVersion_applyAddOptionStr (key : String) (c : ConfigMap)
    (o : IFCExportOptions) : (applyAddOptionStr key c o).FileVersion = o.FileVersion := by
  unfold applyAddOptionStr
  cases h : lookupA key c <;> rfl

theorem FileVersion_applyExcludeFilter (c : ConfigMap) (o : IFCExportOptions) :
    (applyExcludeFilter c o).FileVersion = o.FileVersion := by
  unfold applyExcludeFilter
  cases h : lookupA "ExcludeFilter" c with
  | none => rfl
  | some v => cases v <;> rfl

theorem FileVersion_applySimpleOptions (c : ConfigMap) (o : IFCExportOptions) :
    (applySimpleOptions c o).FileVersion = o.FileVersion := by
  have gen : ∀ (keys : List String) (o : IFCExportOptions),
      (keys.foldl (fun o k => applyAddOptionStr k c o) o).FileVersion = o.FileVersion := by
    intro keys
    induction keys with
    | nil => intro o; rfl
    | cons k ks ih =>
      intro o
      rw [List.foldl_cons, ih, FileVersion_applyAddOptionStr]
  exact gen simple_options o

/-- C4: the recognized numeric `IFCVersion` override values map to exactly
two output version tags — 21 to IFC2x3CV2, 23 or 25 to IFC4 — and any
other value (or an absent key) leaves the previously-set preset version
unchanged; no step of the resolver raises (the resolver is a total
function of the override mapping). -/
theorem C4_version_mapping (config : ConfigMap) (o : IFCExportOptions) :
    (apply_ifc_config_to_options config o).FileVersion =
      match lookupA "IFCVersion" config with
      | some v =>
        if pyEqInt v 21 then IFCVersion.IFC2x3CV2
        else if pyEqInt v 23 || pyEqInt v 25 then IFCVersion.IFC4
        else o.FileVersion
      | none => o.FileVersion := by
  unfold apply_ifc_config_to_options
  rw [FileVersion_applySimpleOptions, FileVersion_applyExcludeFilter,
    FileVersion_applyAddOptionStr, FileVersion_applyAddOptionStr,
    FileVersion_applyBaseQuantities, FileVersion_applySplitWalls,
    FileVersion_applySpaceBoundaries]
  unfold applyIFCVersion
  cases h : lookupA "IFCVersion" config with
  | none => rfl
  | some v =>
    by_cases h21 : pyEqInt v 21 = true
    · simp [h21]
    · by_cases h23 : (pyEqInt v 23 || pyEqInt v 25) = true <;>
        simp [h21, h23]

theorem getOption_AddOption_same (k v : String) (o : IFCExportOptions) :
    getOption k (AddOption k v o) = some v := by
  unfold getOption AddOption
  exact lookupA_setA_same k v o.options

theorem getOption_AddOption_ne {k k' : String} (v : String) (o : IFCExportOptions)
    (h : k' ≠ k) : getOption k (AddOption k' v o) = getOption k o := by
  unfold getOption AddOption
  exact lookupA_setA_ne v o.options h

theorem options_applySpaceBoundaries (c : ConfigMap) (o : IFCExportOptions) :
    (applySpaceBoundaries c o).options = o.options := by
  unfold applySpaceBoundaries
  cases h : lookupA "SpaceBoundaries" c with
  | none => rfl
  | some v => cases v <;> rfl

theorem options_applySplitWalls (c : ConfigMap) (o : IFCExportOptions) :
    (applySplitWalls c o).options = o.options := by
  unfold applySplitWalls
  cases h : lookupA "SplitWallsAndColumns" c with
  | none => rfl
  | some v => cases v <;> rfl

theorem options_applyBaseQuantities (c : ConfigMap) (o : IFCExportOptions) :
    (applyBaseQuantities c o).options = o.options := by
  unfold applyBaseQuantities
  cases h : lookupA "ExportBaseQuantities" c with
  | none => rfl
  | some v => cases v <;> rfl

theorem getOption_applyIFCVersion (k : String) (c : ConfigMap) (o : IFCExportOptions) :
    getOption k (applyIFCVersion c o) = getOption k o := by
  unfold applyIFCVersion
  cases h : lookupA "IFCVersion" c with
  | none => rfl
  | some v =>
    by_cases h21 : pyEqInt v 21 = true
    · simp [h21, getOption]
    · by_cases h23 : (pyEqInt v 23 || pyEqInt v 25) = true <;> simp [h21, h23, getOption]

theorem getOption_applyAddOptionStr_ne {key k : String} (c : ConfigMap)
    (o : IFCExportOptions) (h : key ≠ k) :
    getOption k (applyAddOptionStr key c o) = getOption k o := by
  unfold applyAddOptionStr
  cases hl : lookupA key c with
  | none => rfl
  | some v => exact getOption_AddOption_ne _ _ h

theorem getOption_applyAddOptionStr_absent {key k : String} (c : ConfigMap)
    (o : IFCExportOptions) (h : lookupA k c = none) :
    getOption k (applyAddOptionStr key c o) = getOption k o := by
  by_cases hk : key = k
  · subst hk
    unfold applyAddOptionStr
    rw [h]
  · exact getOption_applyAddOptionStr_ne c o hk

theorem getOption_applyExcludeFilter_ne {k : String} (c : ConfigMap)
    (o : IFCExportOptions) (h : "ExcludeFilter" ≠ k) :
    getOption k (applyExcludeFilter c o) = getOption k o := by
  unfold applyExcludeFilter
  cases hl : lookupA "ExcludeFilter" c with
  | none => rfl
  | some v =>
    cases v with
    | str s => exact getOption_AddOption_ne _ _ h
    | bool b => rfl
    | int n => rfl

theorem getOption_applySimpleOptions_absent {k : String} (c : ConfigMap)
    (o : IFCExportOptions) (h : lookupA k c = none) :
    getOption k (applySimpleOptions c o) = getOption k o := by
  have gen : ∀ (keys : List String) (o : IFCExportOptions),
      getOption k (keys.foldl (fun o k' => applyAddOptionStr k' c o) o) = getOption k o := by
    intro keys
    induction keys with
    | nil => intro o; rfl
    | cons key ks ih =>
      intro o
      rw [List.foldl_cons, ih, getOption_applyAddOptionStr_absent c o h]
  exact gen simple_options o

theorem getOption_apply_ifc_config_absent {k : String} (c : ConfigMap)
    (o : IFCExportOptions) (h : lookupA k c = none)
    (h1 : "ExportRoomsInView" ≠ k) (h2 : "ExportSolidModelRep" ≠ k)
    (h3 : "ExcludeFilter" ≠ k) :
    getOption k (apply_ifc_config_to_options c o) = getOption k o := by
  unfold apply_ifc_config_to_options
  rw [getOption_applySimpleOptions_absent c _ h, getOption_applyExcludeFilter_ne c _ h3,
    getOption_applyAddOptionStr_ne c _ h2, getOption_applyAddOptionStr_ne c _ h1]
  show lookupA k (applyBaseQuantities c (applySplitWalls c (applySpaceBoundaries c
    (applyIFCVersion c o)))).options = _
  rw [options_applyBaseQuantities, options_applySplitWalls, options_applySpaceBoundaries]
  exact getOption_applyIFCVersion k c o

/-- C1 counterexample: with `enforceActiveViewOnly` requested, an override
mapping that explicitly sets `ExportLinkedFiles` to `true` leaves
`"true"` in the final effective bag — the enforcement of that key is NOT
re-applied after the override layer, contradicting the claim that the
final bag always ends with `ExportLinkedFiles="false"`. -/
theorem C1_counterexample :
    getOption "ExportLinkedFiles"
      (export_view_to_ifc_options (some [("ExportLinkedFiles", PyValue.bool true)])
        true "default") = some "true" := by
  decide

/-- C1 amended: with `enforceActiveViewOnly` requested, the final bag
always carries `VisibleElementsOfCurrentView="true"` (the only key
re-applied after the override layer, lines 151–152), and carries
`ExportLinkedFiles="false"` and `Export2DElements="false"` whenever the
override mapping does not itself set those keys; an override that sets
one of those two keys wins for it. -/
theorem C1_enforce_active_view (config : ConfigMap) (ifc_version : String) :
    getOption "VisibleElementsOfCurrentView"
      (export_view_to_ifc_options (some config) true ifc_version) = some "true"
    ∧ (lookupA "ExportLinkedFiles" config = none →
        getOption "ExportLinkedFiles"
          (export_view_to_ifc_options (some config) true ifc_version) = some "false")
    ∧ (lookupA "Export2DElements" config = none →
        getOption "Export2DElements"
          (export_view_to_ifc_options (some config) true ifc_version) = some "false") := by
  unfold export_view_to_ifc_options
  simp only [if_true]
  refine ⟨getOption_AddOption_same _ _ _, ?_, ?_⟩
  · intro h
    rw [getOption_AddOption_ne _ _ (by decide),
      getOption_apply_ifc_config_absent config _ h (by decide) (by decide) (by decide),
      getOption_AddOption_ne _ _ (by decide),
      getOption_AddOption_same]
  · intro h
    rw [getOption_AddOption_ne _ _ (by decide),
      getOption_apply_ifc_config_absent config _ h (by decide) (by decide) (by decide),
      getOption_AddOption_same]

/-- C1 witness: the amended theorem evaluated at a concrete override
mapping that sets neither of the two enforcement keys. -/
theorem C1_enforce_active_view_witness :
    getOption "VisibleElementsOfCurrentView"
      (export_view_to_ifc_options (some [("SpaceBoundaries", PyValue.int 1)])
        true "default") = some "true"
    ∧ getOption "ExportLinkedFiles"
        (export_view_to_ifc_options (some [("SpaceBoundaries", PyValue.int 1)])
          true "default") = some "false"
    ∧ getOption "Export2DElements"
        (export_view_to_ifc_options (some [("SpaceBoundaries", PyValue.int 1)])
          true "default") = some "false" := by
  obtain ⟨h1, h2, h3⟩ := C1_enforce_active_view [("SpaceBoundaries", PyValue.int 1)] "default"
  exact ⟨h1, h2 (by decide), h3 (by decide)⟩

/-! ## ExportOrchestrator claims -/

/-- C3: the exporter call is wrapped in a transaction that is committed
when the call returns with a truthy result, and rolled back — with the
error re-raised out of the transaction scope — when the call raises;
that error yields no entry for this sub-target only, and the sub-targets
before and after it are processed exactly as they would be on their own. -/
theorem C3_transaction_per_subtarget :
    (∀ (fp : String), export_transaction (ExportCall.ok true) fp =
      (TxnOutcome.committed, Except.ok (some fp)))
    ∧ (∀ (fp m : String), export_transaction (ExportCall.raises m) fp =
        (TxnOutcome.rolledBack, Except.error m))
    ∧ (∀ (fp m : String), export_view_to_ifc_result (ExportCall.raises m) fp =
        (TxnOutcome.rolledBack, none))
    ∧ (∀ (pre post : List (String × ExportCall)) (fp m : String),
        process_document_exports (pre ++ (fp, ExportCall.raises m) :: post) =
          process_document_exports pre ++ process_document_exports post) := by
  refine ⟨fun fp => rfl, fun fp m => rfl, fun fp m => rfl, ?_⟩
  intro pre post fp m
  induction pre with
  | nil => rfl
  | cons j rest ih =>
    cases hj : export_view_to_ifc_result j.2 j.1 with
    | mk t r =>
      cases r <;> simp [process_document_exports, hj, ih]

/-! ## BatchRunner characterization -/

theorem open_and_process_foldl (units : List (String × UnitBehavior)) :
    ∀ acc : BatchReport,
    units.foldl open_and_process_step acc =
      { exported_files := acc.exported_files ++ units.flatMap unit_exports,
        successful_files := acc.successful_files + units.countP unit_success,
        failed_files := acc.failed_files ++ units.filterMap unit_failure_entry,
        total_files := acc.total_files } := by
  induction units with
  | nil => intro acc; simp
  | cons u rest ih =>
    intro acc
    rw [List.foldl_cons, ih]
    obtain ⟨name, b⟩ := u
    cases b with
    | openFails m =>
      simp [open_and_process_step, unit_exports, unit_success, unit_failure_entry,
        List.countP_cons]
    | processRaises m =>
      simp [open_and_process_step, unit_exports, unit_success, unit_failure_entry,
        List.countP_cons]
    | opened pf jobs =>
      by_cases he : (batch_process_document pf jobs).1.isEmpty
      · simp [open_and_process_step, unit_exports, unit_success, unit_failure_entry,
          List.countP_cons, he, List.isEmpty_iff.mp he]
      · simp [open_and_process_step, unit_exports, unit_success, unit_failure_entry,
          List.countP_cons, he, Nat.add_comm, Nat.add_assoc, Nat.add_left_comm]

/-- C5: a unit whose no-op transaction probe fails is rejected before any
export: the export loop is never entered (no exporter invocation, no
exported file), and the batch report carries exactly one unit-level
failure entry for it — with the human-readable reason text — while the
other units' contributions are unchanged. -/
theorem C5_probe_failure_rejects_unit :
    (∀ jobs : List (String × ExportCall), batch_process_document true jobs = ([], []))
    ∧ (∀ (pre post : List (String × UnitBehavior)) (name : String)
        (jobs : List (String × ExportCall)),
        open_and_process_revit_files (pre ++ (name, UnitBehavior.opened true jobs) :: post) =
          { exported_files := pre.flatMap unit_exports ++ post.flatMap unit_exports,
            successful_files := pre.countP unit_success + post.countP unit_success,
            failed_files := pre.filterMap unit_failure_entry ++
              (name ++ " (aucune vue exportée)") :: post.filterMap unit_failure_entry,
            total_files := pre.length + 1 + post.length }) := by
  have hbp : ∀ jobs : List (String × ExportCall),
      batch_process_document true jobs = ([], []) := by
    intro jobs
    unfold batch_process_document
    cases jobs <;> simp
  refine ⟨hbp, ?_⟩
  intro pre post name jobs
  unfold open_and_process_revit_files
  rw [open_and_process_foldl]
  simp [unit_exports, unit_success, unit_failure_entry, hbp, List.countP_append,
    List.countP_cons, List.filterMap_append]
  omega

/-- C6: a failure while opening one unit (outer handler, lines 204–208)
or while processing it (inner handler, lines 200–202) is caught, recorded
as a single unit-level failure entry embedding the unit's name and the
error text, and the loop continues: in both cases the units before and
after contribute exactly what they would on their own.  In particular,
for three units where the second throws on open and the first and third
export successfully, the report shows both successful units' files, a
success count of 2, and exactly one failure entry naming unit 2. -/
theorem C6_batch_isolates_unit_failures :
    (∀ (pre post : List (String × UnitBehavior)) (name m : String),
      open_and_process_revit_files (pre ++ (name, UnitBehavior.openFails m) :: post) =
        { exported_files := pre.flatMap unit_exports ++ post.flatMap unit_exports,
          successful_files := pre.countP unit_success + post.countP unit_success,
          failed_files := pre.filterMap unit_failure_entry ++
            (name ++ " (" ++ m ++ ")") :: post.filterMap unit_failure_entry,
          total_files := pre.length + 1 + post.length })
    ∧ (∀ (pre post : List (String × UnitBehavior)) (name m : String),
        open_and_process_revit_files
            (pre ++ (name, UnitBehavior.processRaises m) :: post) =
          { exported_files := pre.flatMap unit_exports ++ post.flatMap unit_exports,
            successful_files := pre.countP unit_success + post.countP unit_success,
            failed_files := pre.filterMap unit_failure_entry ++
              (name ++ " (" ++ m ++ ")") :: post.filterMap unit_failure_entry,
            total_files := pre.length + 1 + post.length })
    ∧ (∀ (n1 n2 n3 m : String) (j1 j3 : List (String × ExportCall)),
        (batch_process_document false j1).1 ≠ [] →
        (batch_process_document false j3).1 ≠ [] →
        open_and_process_revit_files
          [(n1, UnitBehavior.opened false j1), (n2, UnitBehavior.openFails m),
           (n3, UnitBehavior.opened false j3)] =
          { exported_files := (batch_process_document false j1).1 ++
              (batch_process_document false j3).1,
            successful_files := 2,
            failed_files := [n2 ++ " (" ++ m ++ ")"],
            total_files := 3 }) := by
  refine ⟨?_, ?_, ?_⟩
  · intro pre post name m
    unfold open_and_process_revit_files
    rw [open_and_process_foldl]
    simp [unit_exports, unit_success, unit_failure_entry, List.countP_append,
      List.countP_cons, List.filterMap_append]
    omega
  · intro pre post name m
    unfold open_and_process_revit_files
    rw [open_and_process_foldl]
    simp [unit_exports, unit_success, unit_failure_entry, List.countP_append,
      List.countP_cons, List.filterMap_append]
    omega
  · intro n1 n2 n3 m j1 j3 h1 h3
    unfold open_and_process_revit_files
    rw [open_and_process_foldl]
    simp [unit_exports, unit_success, unit_failure_entry, List.countP_cons,
      List.isEmpty_iff, h1, h3]

/-- C6 witness: the three-unit scenario at concrete units — unit 2 throws
on open, units 1 and 3 each export one view successfully. -/
theorem C6_batch_isolates_unit_failures_witness :
    open_and_process_revit_files
      [("A", UnitBehavior.opened false [("A1.ifc", ExportCall.ok true)]),
       ("B", UnitBehavior.openFails "cannot open"),
       ("C", UnitBehavior.opened false [("C1.ifc", ExportCall.ok true)])] =
      { exported_files := ["A1.ifc", "C1.ifc"], successful_files := 2,
        failed_files := ["B (cannot open)"], total_files := 3 } := by
  have h := C6_batch_isolates_unit_failures.2.2 "A" "B" "C" "cannot open"
    [("A1.ifc", ExportCall.ok true)] [("C1.ifc", ExportCall.ok true)]
    (by decide) (by decide)
  exact h.trans (by decide)

/-! ## Split and scan lemmas -/

theorem splitOnChar_head (sep : Char) (s : PyStr) :
    ∃ tl, splitOnChar sep s = takeUntilChar sep s :: tl := by
  induction s with
  | nil => exact ⟨[], rfl⟩
  | cons c t ih =>
    by_cases hc : c == sep
    · refine ⟨splitOnChar sep t, ?_⟩
      simp [splitOnChar, takeUntilChar, hc]
    · obtain ⟨tl, htl⟩ := ih
      refine ⟨tl, ?_⟩
      simp only [splitOnChar, takeUntilChar, hc, if_false, Bool.false_eq_true]
      rw [htl]
      simp only [takeUntilChar] at *
      simp [hc]

theorem splitOnChar_of_mem {sep : Char} {s : PyStr} (h : sep ∈ s) :
    splitOnChar sep s =
      takeUntilChar sep s :: splitOnChar sep (tailAfterFirst sep s) := by
  induction s with
  | nil => cases h
  | cons c t ih =>
    by_cases hc : c = sep
    · subst hc
      simp [splitOnChar, takeUntilChar, tailAfterFirst]
    · have hmem : sep ∈ t := by
        rcases List.mem_cons.mp h with h1 | h1
        · exact absurd h1.symm hc
        · exact h1
      have hcb : (c == sep) = false := by simp [hc]
      simp only [splitOnChar, hcb, Bool.false_eq_true, if_false]
      rw [ih hmem]
      simp [takeUntilChar, tailAfterFirst, hcb]

theorem mem_of_containsSub {c : Char} {p s : PyStr}
    (h : containsSub (c :: p) s = true) : c ∈ s := by
  induction s with
  | nil => simp [containsSub, isPrefixOfChars] at h
  | cons b bs ih =>
    rw [containsSub, Bool.or_eq_true] at h
    rcases h with h1 | h1
    · rw [isPrefixOfChars, Bool.and_eq_true] at h1
      have : c = b := by simpa using h1.1
      subst this
      exact List.mem_cons_self c bs
    · exact List.mem_cons_of_mem b (ih h1)

theorem dropWhile_ne_of_mem {c : Char} {s : PyStr} (h : c ∈ s) :
    ∃ rest, s.dropWhile (fun x => !(x == c)) = c :: rest := by
  induction s with
  | nil => cases h
  | cons b bs ih =>
    by_cases hb : b = c
    · subst hb
      exact ⟨bs, by simp [List.dropWhile]⟩
    · have hmem : c ∈ bs := by
        rcases List.mem_cons.mp h with h1 | h1
        · exact absurd h1.symm hb
        · exact h1
      obtain ⟨rest, hr⟩ := ih hmem
      refine ⟨rest, ?_⟩
      have hbb : (b == c) = false := by simp [hb]
      simp [List.dropWhile, hbb, hr]

theorem read_ifc_line_eq (i : Nat) (l : PyStr) :
    read_ifc_line i l =
      if ifcLineQualifies l then some (spec_record i l) else none := by
  by_cases hq : ifcLineQualifies l
  · have hc : containsSub ("=IFC".data) l = true := by
      unfold ifcLineQualifies at hq
      exact ((Bool.and_eq_true _ _).mp hq).1
    have hpat : ("=IFC".data) = '=' :: "IFC".data := rfl
    rw [hpat] at hc
    have hm : '=' ∈ l := mem_of_containsSub hc
    obtain ⟨rest, hr⟩ := dropWhile_ne_of_mem hm
    have htail : tailAfterFirst '=' l = rest := by
      unfold tailAfterFirst
      rw [hr]
      rfl
    have hsplit : splitOnChar '=' l =
        takeUntilChar '=' l :: splitOnChar '=' rest := by
      rw [splitOnChar_of_mem hm, htail]
    obtain ⟨tl2, h2⟩ := splitOnChar_head '=' rest
    obtain ⟨tl3, h3⟩ := splitOnChar_head '(' (takeUntilChar '=' rest)
    unfold read_ifc_line
    rw [if_pos hq, if_pos hq, hsplit, h2]
    simp only [h3, List.headD_cons]
    unfold spec_record spec_entity_id spec_entity_type
    rw [htail]

  · unfold read_ifc_line
    rw [if_neg hq, if_neg hq]

theorem code_records_eq_spec (ls : List PyStr) : ∀ n : Nat,
    code_records n ls = spec_records n ls := by
  induction ls with
  | nil => intro n; rfl
  | cons l rest ih =>
    intro n
    unfold code_records spec_records
    rw [read_ifc_line_eq]
    by_cases hq : ifcLineQualifies l <;> simp [hq, ih]

/-- C7 counterexample: on the stream consisting of the single line
`##1=IFC=WALL(x)` the extractor yields id `1` (all `#` stripped, not just
the leading one) and type `IFC` (the segment between the first and second
`=`, because the code splits on every `=`), whereas the claim's rules
yield id `#1` and type `IFC=WALL` — so the claim's field rules do not
describe the extractor. -/
theorem C7_counterexample :
    (read_ifc_file [("##1=IFC=WALL(x)").data]).elements_by_type =
      [(("IFC").data,
        [{ id := ("1").data, entityType := ("IFC").data, line := 1,
           raw_data := ("##1=IFC=WALL(x)").data }])]
    ∧ claim_entity_id (("##1=IFC=WALL(x)").data) = ("#1").data
    ∧ claim_entity_type (("##1=IFC=WALL(x)").data) = ("IFC=WALL").data
    ∧ ("IFC").data ≠ ("IFC=WALL").data ∧ ("1").data ≠ ("#1").data := by
  refine ⟨by decide, by decide, by decide, by decide, by decide⟩

theorem read_ifc_buckets_eq (lines : List PyStr) (t : PyStr) :
    lookupA t (read_ifc_file lines).elements_by_type =
      (if ((spec_records 0 lines).filter (fun r => r.entityType = t)).isEmpty then none
       else some ((spec_records 0 lines).filter (fun r => r.entityType = t))) := by
  unfold read_ifc_file
  rw [read_ifc_lines_eq_fold, foldl_addRecord_buckets, code_records_eq_spec]
  simp [lookupA, optExtend]

/-- C7 amended: the extractor produces a record exactly for each line
that starts with `#` and contains `=IFC`; the record's entity id is the
text left of the first `=` with all leading and trailing `#` characters
stripped then whitespace-stripped, its entity type is the text between
the first and second `=` (to end of line when there is no second `=`)
truncated before its first `(` and whitespace-stripped, its line number
is the 1-based position of the line, and each type's bucket is exactly
the subsequence of those records bearing that type, in file order. -/
theorem C7_record_extraction (lines : List PyStr) (t : PyStr) :
    lookupA t (read_ifc_file lines).elements_by_type =
      (if ((spec_records 0 lines).filter (fun r => r.entityType = t)).isEmpty then none
       else some ((spec_records 0 lines).filter (fun r => r.entityType = t))) :=
  read_ifc_buckets_eq lines t

theorem spec_records_append (l : PyStr) (post : List PyStr)
    (hq : ifcLineQualifies l = true) :
    ∀ (pre : List PyStr) (n : Nat),
    spec_record (n + pre.length + 1) l ∈ spec_records n (pre ++ l :: post) := by
  intro pre
  induction pre with
  | nil =>
    intro n
    simp only [List.nil_append, List.length_nil, Nat.add_zero]
    unfold spec_records
    rw [if_pos hq]
    exact List.mem_cons_self _ _
  | cons p ps ih =>
    intro n
    have harith : n + (p :: ps).length + 1 = (n + 1) + ps.length + 1 := by
      simp [List.length_cons]
      omega
    rw [harith]
    show spec_record ((n + 1) + ps.length + 1) l ∈ spec_records n (p :: (ps ++ l :: post))
    unfold spec_records
    by_cases hp : ifcLineQualifies p
    · rw [if_pos hp]
      exact List.mem_cons_of_mem _ (ih (n + 1))
    · rw [if_neg hp]
      exact ih (n + 1)

/-- C2 counterexample: the line `#1=IFCWALL` starts with `#`, contains
`=IFC` and has no `(` — yet it is not skipped: `split('(')` of a
paren-free string returns the whole string, so a record with type
`IFCWALL` appears in the returned mapping. -/
theorem C2_counterexample :
    (read_ifc_file [("#1=IFCWALL").data]).elements_by_type =
      [(("IFCWALL").data,
        [{ id := ("1").data, entityType := ("IFCWALL").data, line := 1,
           raw_data := ("#1=IFCWALL").data }])] := by
  decide

/-- C2 amended: a line that starts with `#`, contains `=IFC` and whose
id-adjacent segment has no `(` is NOT skipped: it contributes a record
to the returned mapping, and that record's entity type is the whole text
between the first and second `=` (to end of line), whitespace-stripped —
the missing `(` truncates nothing.  Only lines on which record
construction raises (e.g. decoding failures) are skipped. -/
theorem C2_no_paren_line_kept (pre post : List PyStr) (l : PyStr)
    (hq : ifcLineQualifies l = true)
    (hnp : ∀ c ∈ takeUntilChar '=' (tailAfterFirst '=' l), c ≠ '(') :
    spec_entity_type l = stripWs (takeUntilChar '=' (tailAfterFirst '=' l))
    ∧ spec_record (pre.length + 1) l ∈
        (lookupA (spec_entity_type l)
          (read_ifc_file (pre ++ l :: post)).elements_by_type).getD [] := by
  have hty : spec_entity_type l = stripWs (takeUntilChar '=' (tailAfterFirst '=' l)) := by
    unfold spec_entity_type takeUntilChar
    congr 1
    rw [List.takeWhile_eq_self_iff.mpr]
    intro a ha
    simpa using hnp a ha
  refine ⟨hty, ?_⟩
  have hmem : spec_record (pre.length + 1) l ∈ spec_records 0 (pre ++ l :: post) := by
    have := spec_records_append l post hq pre 0
    simpa using this
  have hfil : spec_record (pre.length + 1) l ∈
      (spec_records 0 (pre ++ l :: post)).filter
        (fun r => r.entityType = spec_entity_type l) := by
    rw [List.mem_filter]
    exact ⟨hmem, by simp [spec_record]⟩
  rw [read_ifc_buckets_eq]
  have hne : ¬ ((spec_records 0 (pre ++ l :: post)).filter
      (fun r => r.entityType = spec_entity_type l)).isEmpty := by
    rw [List.isEmpty_iff]
    intro hcon
    rw [hcon] at hfil
    cases hfil
  rw [if_neg hne]
  simpa using hfil

/-- C2 witness: the amended statement evaluated on the one-line stream
`#1=IFCWALL`. -/
theorem C2_no_paren_line_kept_witness :
    spec_entity_type (("#1=IFCWALL").data) =
      stripWs (takeUntilChar '=' (tailAfterFirst '=' (("#1=IFCWALL").data)))
    ∧ spec_record 1 (("#1=IFCWALL").data) ∈
        (lookupA (spec_entity_type (("#1=IFCWALL").data))
          (read_ifc_file ([] ++ ("#1=IFCWALL").data :: [])).elements_by_type).getD [] := by
  have h := C2_no_paren_line_kept [] [] (("#1=IFCWALL").data) (by decide)
    (by decide)
  simpa using h

/-! ## FilenameSanitizer lemmas -/

theorem dropWhile_dropWhile {α : Type} (p : α → Bool) (l : List α) :
    (l.dropWhile p).dropWhile p = l.dropWhile p := by
  induction l with
  | nil => rfl
  | cons c t ih =>
    by_cases hc : p c
    · simp [List.dropWhile, hc, ih]
    · simp [List.dropWhile, hc]

theorem mem_rstripWs {c : Char} {s : PyStr} (h : c ∈ rstripWs s) : c ∈ s := by
  unfold rstripWs at h
  rw [List.mem_reverse] at h
  have hsub : List.Sublist (s.reverse.dropWhile pyIsSpace) s.reverse :=
    List.dropWhile_sublist _
  have := hsub.mem h
  rwa [List.mem_reverse] at this

theorem safe_viewname_idem (s : PyStr) :
    safe_viewname (safe_viewname s) = safe_viewname s := by
  unfold safe_viewname
  have hfil : (rstripWs (s.filter keepChar)).filter keepChar =
      rstripWs (s.filter keepChar) := by
    rw [List.filter_eq_self]
    intro a ha
    exact (List.mem_filter.mp (mem_rstripWs ha)).2
  rw [hfil]
  unfold rstripWs
  rw [List.reverse_reverse, dropWhile_dropWhile]

theorem keepChar_eq_spec_ascii {c : Char} (h : c.toNat < 128) :
    keepChar c = spec_ascii_keep c := by
  unfold keepChar pyIsAlnum spec_ascii_keep inRange
  rw [Bool.eq_iff_iff]
  simp only [Bool.or_eq_true, Bool.and_eq_true, Bool.not_eq_true', beq_iff_eq,
    decide_eq_true_eq, decide_eq_false_iff_not]
  omega

theorem filter_keepChar_eq_spec {s : PyStr} (h : ∀ c ∈ s, c.toNat < 128) :
    s.filter keepChar = s.filter spec_ascii_keep := by
  induction s with
  | nil => rfl
  | cons c t ih =>
    have hc : c.toNat < 128 := h c (List.mem_cons_self c t)
    have ht : ∀ x ∈ t, x.toNat < 128 := fun x hx => h x (List.mem_cons_of_mem c hx)
    simp only [List.filter_cons, keepChar_eq_spec_ascii hc, ih ht]

/-- C8 counterexample: the character `é` (U+00E9) is outside the claim's
class `[A-Za-z0-9 _-]`, yet Python's Unicode-aware `isalnum` accepts it,
so the sanitizer keeps it: sanitizing the one-character name `é` returns
it unchanged instead of removing it. -/
theorem C8_counterexample :
    safe_viewname ['é'] = ['é'] ∧ spec_ascii_keep 'é' = false
    ∧ spec_ascii_sanitize ['é'] = [] := by
  refine ⟨by decide, by decide, by decide⟩

/-- C8 amended: the sanitizer keeps exactly the characters accepted by
Python's Unicode-aware `isalnum` (accented letters such as `é` included)
together with space, hyphen and underscore; restricted to ASCII input
this coincides with the claim's class `[A-Za-z0-9 _-]`.  Trailing
whitespace is trimmed, the optional prefix is prepended verbatim, and
sanitization is idempotent. -/
theorem C8_sanitize :
    (∀ s : PyStr, safe_viewname (safe_viewname s) = safe_viewname s)
    ∧ (∀ s : PyStr, (∀ c ∈ s, c.toNat < 128) →
        safe_viewname s = spec_ascii_sanitize s)
    ∧ (∀ pfx s : PyStr, safe_filename pfx s = pfx ++ safe_viewname s) := by
  refine ⟨safe_viewname_idem, ?_, fun pfx s => rfl⟩
  intro s h
  unfold safe_viewname spec_ascii_sanitize
  rw [filter_keepChar_eq_spec h]

/-- C8 witness: the amended theorem evaluated at the ASCII display name
`Plan 01/02 - Level A ` (with a trailing space), checking in passing that
the slash is removed and the trailing space trimmed. -/
theorem C8_sanitize_witness :
    safe_viewname (("Plan 01/02 - Level A ").data) =
      spec_ascii_sanitize (("Plan 01/02 - Level A ").data)
    ∧ safe_viewname (("Plan 01/02 - Level A ").data) =
        ("Plan 0102 - Level A").data := by
  refine ⟨C8_sanitize.2.1 (("Plan 01/02 - Level A ").data) (by decide), by decide⟩
